import Mathlib

/-!
# power_gadget.c : sampling, accumulation, field selection

A shallow embedding of `src/power_gadget.c`.

* C `double` values are modelled by `Dbl`: an exact rational, or one of the
  IEEE special values `+inf`, `-inf`, `NaN`.  Rounding and the sign of zero are
  not modelled (a zero is treated as `+0`).
* `uint64_t` values are natural numbers, reduced modulo `2 ^ 64` where the
  source can overflow.
* Stack arrays indexed `[node][domain]` are functions `Nat → Nat → Dbl`.
  The arrays are declared without an initialiser in the source, so their
  content at loop entry is an argument of the model.
* `stdout` is modelled by the list of columns printed.
* The functions declared in `rapl.h` are not part of the source file; what they
  return is an argument of the model (`Hardware`, `Reads`).
-/

namespace PowerGadget

/-! ## Doubles -/

/-- C `double`: a finite value (exact, no rounding) or an IEEE special value. -/
inductive Dbl where
  | fin (q : ℚ)
  | pinf
  | ninf
  | nan
  deriving DecidableEq

namespace Dbl

/-- IEEE negation. -/
def neg : Dbl → Dbl
  | fin q => fin (-q)
  | pinf => ninf
  | ninf => pinf
  | nan => nan

/-- IEEE addition (finite values exact). -/
def add : Dbl → Dbl → Dbl
  | fin a, fin b => fin (a + b)
  | nan, _ => nan
  | _, nan => nan
  | pinf, ninf => nan
  | ninf, pinf => nan
  | pinf, _ => pinf
  | _, pinf => pinf
  | ninf, _ => ninf
  | _, ninf => ninf

/-- IEEE subtraction. -/
def sub (x y : Dbl) : Dbl := add x (neg y)

/-- IEEE division: a finite non-zero value divided by zero is an infinity, `0 / 0`
and `inf / inf` are NaN; nothing traps. -/
def div : Dbl → Dbl → Dbl
  | nan, _ => nan
  | _, nan => nan
  | fin a, fin b =>
      if b = 0 then (if a = 0 then nan else if 0 < a then pinf else ninf)
      else fin (a / b)
  | fin _, pinf => fin 0
  | fin _, ninf => fin 0
  | pinf, fin b => if 0 ≤ b then pinf else ninf
  | ninf, fin b => if 0 ≤ b then ninf else pinf
  | pinf, pinf => nan
  | pinf, ninf => nan
  | ninf, pinf => nan
  | ninf, ninf => nan

/-- C `x < y` on doubles; false as soon as one side is NaN. -/
def lt : Dbl → Dbl → Bool
  | fin a, fin b => decide (a < b)
  | ninf, fin _ => true
  | ninf, pinf => true
  | fin _, pinf => true
  | _, _ => false

/-- C `x <= y` on doubles; false as soon as one side is NaN. -/
def le : Dbl → Dbl → Bool
  | nan, _ => false
  | _, nan => false
  | fin a, fin b => decide (a ≤ b)
  | ninf, _ => true
  | _, pinf => true
  | _, _ => false

/-- The double constant `0`. -/
def zero : Dbl := fin 0

end Dbl

/-! ## `rapl.h` -/

/-- Modelled from the spec: `rapl.h` is not in the source; the domain index of
Package. The spec lists the domains as Package, Core-IA, Graphics, DRAM. -/
def RAPL_PKG : Nat := 0

/-- Modelled from the spec: `rapl.h` is not in the source; the domain index of
Core-IA. -/
def RAPL_PP0 : Nat := 1

/-- Modelled from the spec: `rapl.h` is not in the source; the domain index of
Graphics. -/
def RAPL_PP1 : Nat := 2

/-- Modelled from the spec: `rapl.h` is not in the source; the domain index of
DRAM. -/
def RAPL_DRAM : Nat := 3

/-- Modelled from the spec: `rapl.h` is not in the source; the number of
domains. -/
def RAPL_NR_DOMAIN : Nat := 4

/-- Modelled from the spec: `rapl.h` is not in the source; the `case` label for
Package in `get_rapl_energy_info`, called with the domain index. -/
def PKG : Nat := 0

/-- Modelled from the spec: `rapl.h` is not in the source; the `case` label for
Core-IA. -/
def PP0 : Nat := 1

/-- Modelled from the spec: `rapl.h` is not in the source; the `case` label for
Graphics. -/
def PP1 : Nat := 2

/-- Modelled from the spec: `rapl.h` is not in the source; the `case` label for
DRAM. -/
def DRAM : Nat := 3

/-- Modelled from the spec: `rapl.h` is not in the source; the error code that
`main` returns when `init_rapl` fails. -/
def MY_ERROR : Int := -1

/-- What a `get_*_total_energy_consumed(node, &out)` call does: the status it
returns and the value it stores through `out`, if it stores one. -/
structure ReadResult where
  err : Int
  written : Option Dbl

/-- The energy counters as one round of reads sees them.  `uninit domain node`
is the indeterminate content of the local `total_energy_consumed` of
`get_rapl_energy_info`, which the source declares without an initialiser. -/
structure Reads where
  get_pkg_total_energy_consumed : Nat → ReadResult
  get_pp0_total_energy_consumed : Nat → ReadResult
  get_pp1_total_energy_consumed : Nat → ReadResult
  get_dram_total_energy_consumed : Nat → ReadResult
  uninit : Nat → Nat → Dbl

/-- The parts of the hardware layer that are constant during a run. -/
structure Hardware where
  is_supported_domain : Nat → Bool
  GetMaxEnergyStatusJoules : Dbl

/-! ## `get_rapl_energy_info` -/

/-- The pair `(err, total_energy_consumed)` at the end of the `switch` of
`get_rapl_energy_info`. -/
def get_rapl_energy_info_locals (rd : Reads) (power_domain node : Nat) : Int × Dbl :=
  let total_energy_consumed := rd.uninit power_domain node
  if power_domain = PKG then
    let r := rd.get_pkg_total_energy_consumed node
    (r.err, r.written.getD total_energy_consumed)
  else if power_domain = PP0 then
    let r := rd.get_pp0_total_energy_consumed node
    (r.err, r.written.getD total_energy_consumed)
  else if power_domain = PP1 then
    let r := rd.get_pp1_total_energy_consumed node
    (r.err, r.written.getD total_energy_consumed)
  else if power_domain = DRAM then
    let r := rd.get_dram_total_energy_consumed node
    (r.err, r.written.getD total_energy_consumed)
  else
    (MY_ERROR, total_energy_consumed)

/-- The function `get_rapl_energy_info`: it returns `total_energy_consumed`; `err` is
assigned in every branch and never read. -/
def get_rapl_energy_info (rd : Reads) (power_domain node : Nat) : Dbl :=
  (get_rapl_energy_info_locals rd power_domain node).2

/-! ## The sampling loop of `do_print_energy_info` -/

/-- Assignment `a[i][domain] = v`. -/
def set2 (a : Nat → Nat → Dbl) (i domain : Nat) (v : Dbl) : Nat → Nat → Dbl :=
  fun i' d' => if i' = i ∧ d' = domain then v else a i' d'

/-- The four arrays `double x[num_node][RAPL_NR_DOMAIN]`. -/
structure SampleArrays where
  prev_sample : Nat → Nat → Dbl
  power_watt : Nat → Nat → Dbl
  cum_energy_J : Nat → Nat → Dbl
  cum_energy_mWh : Nat → Nat → Dbl

/-- The wraparound-corrected `delta` of lines 223-228. -/
def corrected_delta (hw : Hardware) (new_sample prev : Dbl) : Dbl :=
  let delta := Dbl.sub new_sample prev
  if Dbl.lt delta Dbl.zero then Dbl.add delta hw.GetMaxEnergyStatusJoules else delta

/-- Body of the two nested `for` loops of the sampling pass (lines 221-238). -/
def sample_cell (hw : Hardware) (rd : Reads) (interval_elapsed_time : Dbl)
    (a : SampleArrays) (i domain : Nat) : SampleArrays :=
  if hw.is_supported_domain domain then
    let new_sample := get_rapl_energy_info rd domain i
    let delta := corrected_delta hw new_sample (a.prev_sample i domain)
    let cum := Dbl.add (a.cum_energy_J i domain) delta
    { prev_sample := set2 a.prev_sample i domain new_sample
      power_watt := set2 a.power_watt i domain (Dbl.div delta interval_elapsed_time)
      cum_energy_J := set2 a.cum_energy_J i domain cum
      cum_energy_mWh := set2 a.cum_energy_mWh i domain (Dbl.div cum (Dbl.fin (18 / 5))) }
  else a

/-- The inner loop `for (domain = 0; domain < RAPL_NR_DOMAIN; ++domain)`. -/
def sample_node (hw : Hardware) (rd : Reads) (interval_elapsed_time : Dbl)
    (a : SampleArrays) (i : Nat) : SampleArrays :=
  (List.range RAPL_NR_DOMAIN).foldl
    (fun acc domain => sample_cell hw rd interval_elapsed_time acc i domain) a

/-- The outer loop `for (i = node; i < num_node; i++)` of lines 219-240. -/
def sample_all (hw : Hardware) (rd : Reads) (interval_elapsed_time : Dbl)
    (num_node : Nat) (a : SampleArrays) : SampleArrays :=
  (List.range num_node).foldl
    (fun acc i => sample_node hw rd interval_elapsed_time acc i) a

/-- The initial reads of lines 198-204: only `prev_sample` is assigned. -/
def read_initial (hw : Hardware) (rd : Reads) (num_node : Nat) (a : SampleArrays) :
    SampleArrays :=
  (List.range num_node).foldl
    (fun acc i => (List.range RAPL_NR_DOMAIN).foldl
      (fun acc domain =>
        if hw.is_supported_domain domain then
          { acc with prev_sample := set2 acc.prev_sample i domain (get_rapl_energy_info rd domain i) }
        else acc) acc) a

/-- The local variables of `do_print_energy_info` that live across iterations. -/
structure LoopState where
  arrays : SampleArrays
  start : Dbl
  end_time : Dbl
  total_elapsed_time : Dbl

/-- What the environment supplies during one pass of the `while (1)` body: the
clock after `usleep`, the counters, the clock after the reads. -/
structure Tick where
  interval_start : Dbl
  reads : Reads
  end_time : Dbl

/-- State at line 208, after the initial reads and `end = start`.  `stack` is the
content of the uninitialised arrays. -/
def loop_entry (hw : Hardware) (num_node : Nat) (stack : SampleArrays) (rd0 : Reads)
    (now : Dbl) (total0 : Dbl) : LoopState :=
  { arrays := read_initial hw rd0 num_node stack
    start := now
    end_time := now
    total_elapsed_time := total0 }

/-- One pass of the `while (1)` body up to line 244. -/
def sampling_iteration (hw : Hardware) (num_node : Nat) (s : LoopState) (t : Tick) :
    LoopState :=
  let interval_elapsed_time := Dbl.sub t.interval_start s.end_time
  { arrays := sample_all hw t.reads interval_elapsed_time num_node s.arrays
    start := s.start
    end_time := t.end_time
    total_elapsed_time := Dbl.sub t.end_time s.start }

/-- The `while (1)` loop: the states whose rows are printed, in order.  The loop
leaves after a pass with `total_elapsed_time >= duration`; the list of ticks is
what the environment supplies. -/
def sampling_loop (hw : Hardware) (num_node : Nat) (duration : Dbl) :
    LoopState → List Tick → List LoopState
  | _, [] => []
  | s, t :: ts =>
      let s' := sampling_iteration hw num_node s t
      if Dbl.le duration s'.total_elapsed_time then [s']
      else s' :: sampling_loop hw num_node duration s' ts

/-! ## Field selection -/

/-- The constant `ENUM_SIZE` of `enum fields`. -/
def ENUM_SIZE : Nat := 16

/-- The enumerators of `enum fields` in declaration order, each with its spelling
(what `#ENUM` expands to) and its value. -/
def fields : List (String × Nat) :=
  [("systime", 1 <<< 0), ("rdtsc", 1 <<< 1), ("elapsed", 1 <<< 2), ("ia_freq", 1 <<< 3),
   ("powerW", 1 <<< 4), ("energyJ", 1 <<< 5), ("energyW", 1 <<< 6),
   ("ia_powerW", 1 <<< 7), ("ia_energyJ", 1 <<< 8), ("ia_energyW", 1 <<< 9),
   ("gt_powerW", 1 <<< 10), ("gt_energyJ", 1 <<< 11), ("gt_energyW", 1 <<< 12),
   ("dram_powerW", 1 <<< 13), ("dram_energyJ", 1 <<< 14), ("dram_energyW", 1 <<< 15)]

/-- The table `column_headers`: label and `hsd` (`none` for `-1`). -/
def column_headers : List (String × Option Nat) :=
  [("System Time", none), ("RDTSC", none), ("Elapsed Time", none),
   ("IA Frequency (%d)", some RAPL_PP0),
   ("Processor Power (%d) (Watts)", some RAPL_PKG),
   ("Cumulative Processor Energy (%d) (Joules)", some RAPL_PKG),
   ("Cumulative Processor Energy (%d) (mWh)", some RAPL_PKG),
   ("IA Power (%d) (Watts)", some RAPL_PP0),
   ("Cumulative IA Energy (%d) (Joules)", some RAPL_PP0),
   ("Cumulative IA Energy (%d) (mWh)", some RAPL_PP0),
   ("GT Power (%d) (Watts)", some RAPL_PP1),
   ("Cumulative GT Energy (%d) (Joules)", some RAPL_PP1),
   ("Cumulative GT Energy (%d) (mWh)", some RAPL_PP1),
   ("DRAM Power (%d) (Watts)", some RAPL_DRAM),
   ("Cumulative DRAM Energy (%d) (Joules)", some RAPL_DRAM),
   ("Cumulative DRAM Energy (%d) (mWh)", some RAPL_DRAM)]

/-- One printed column: the index of the field in `enum fields` and, when the column
is printed for a node, that node. -/
structure Col where
  field : Nat
  node : Option Nat
  deriving DecidableEq

/-- The test `0x1 << ent & fields_to_render`. -/
def selected (fields_to_render ent : Nat) : Bool :=
  (1 <<< ent) &&& fields_to_render != 0

/-- Body of the header loops (lines 179-191) for node `i` and entry `ent`.  The inner
loop runs up to `ent = ENUM_SIZE` included; `column_headers[ENUM_SIZE]` is past
the end of the table and the model prints nothing there. -/
def header_entry (hw : Hardware) (fields_to_render i ent : Nat) : List Col :=
  if !selected fields_to_render ent then []
  else
    match column_headers[ent]? with
    | none => []
    | some (_, none) => if 0 = i then [⟨ent, none⟩] else []
    | some (_, some hsd) => if hw.is_supported_domain hsd then [⟨ent, some i⟩] else []

/-- The header line (lines 177-193): the columns printed, in order. -/
def header_cols (hw : Hardware) (fields_to_render num_node : Nat) : List Col :=
  (List.range num_node).flatMap fun i =>
    (List.range (ENUM_SIZE + 1)).flatMap fun ent => header_entry hw fields_to_render i ent

/-- Body of the row loops (lines 268-294) for node `i` and domain `domain`. -/
def row_cell (hw : Hardware) (fields_to_render i domain : Nat) : List Col :=
  (if selected fields_to_render 3 then [⟨3, some i⟩] else []) ++
  (if !hw.is_supported_domain domain then []
   else
    let pow := domain * 3 + 4
    let eng := domain * 3 + 5
    let wat := domain * 3 + 6
    (if selected fields_to_render pow then [⟨pow, some i⟩] else []) ++
    (if selected fields_to_render eng then [⟨eng, some i⟩] else []) ++
    (if selected fields_to_render wat then [⟨wat, some i⟩] else []))

/-- One data line (lines 250-297): the columns printed, in order. -/
def row_cols (hw : Hardware) (fields_to_render num_node : Nat) : List Col :=
  (if selected fields_to_render 0 then [⟨0, none⟩] else []) ++
  (if selected fields_to_render 1 then [⟨1, none⟩] else []) ++
  (if selected fields_to_render 2 then [⟨2, none⟩] else []) ++
  (List.range num_node).flatMap fun i =>
    (List.range RAPL_NR_DOMAIN).flatMap fun domain => row_cell hw fields_to_render i domain

/-! ## `cmdline` and `main` -/

/-- The tokens that `strtok(cop, ",")` and the following `strtok(NULL, ",")` calls
return: the maximal non-empty runs without a comma, in order.  `cur` is the run
being read, reversed. -/
def strtok_tokens_aux : List Char → List Char → List (List Char)
  | [], cur => if cur = [] then [] else [cur.reverse]
  | c :: cs, cur =>
      if c = ',' then
        (if cur = [] then strtok_tokens_aux cs [] else cur.reverse :: strtok_tokens_aux cs [])
      else strtok_tokens_aux cs (c :: cur)

/-- The tokens of an `-f` argument. -/
def strtok_tokens (optarg : List Char) : List (List Char) :=
  strtok_tokens_aux optarg []

/-- The sixteen `APPLY(ENUM)` lines for one token: the final `chk` and
`fields_to_render`. -/
def apply_token (each : List Char) (fields_to_render : Nat) : Bool × Nat :=
  fields.foldl
    (fun st e => if st.1 && decide (each = e.1.data) then (false, st.2 ||| e.2) else st)
    (true, fields_to_render)

/-- The `while (each != NULL)` loop: the token at which it returns `-1`, if any, and
`fields_to_render` when it stops. -/
def apply_tokens : List (List Char) → Nat → Option (List Char) × Nat
  | [], m => (none, m)
  | each :: rest, m =>
      let r := apply_token each m
      if r.1 then (some each, r.2) else apply_tokens rest r.2

/-- What `getopt(argc, argv, "e:d:f:F")` returns, with what `atoi` and `atof` make
of `optarg`.  The letter `h` is not in the option string, so it arrives as
`other`. -/
inductive Opt where
  | e (atoi_optarg : Int)
  | d (atof_optarg : Dbl)
  | f (optarg : List Char)
  | F
  | other

/-- The globals that `cmdline` writes. -/
structure Globals where
  delay_us : Nat
  duration : Dbl
  fields_to_render : Nat

/-- The static initialisers of lines 30, 31 and 55. -/
def initial_globals : Globals :=
  { delay_us := 1000000, duration := Dbl.fin 3600, fields_to_render := 0 }

/-- What `cmdline` prints. -/
inductive Msg where
  | delay_too_small
  | duration_not_positive
  | unknown_field (each : List Char)
  | show_fopts
  | usage
  deriving DecidableEq

/-- Result of `cmdline`: return value, globals, what was printed. -/
structure CmdResult where
  ret : Int
  globals : Globals
  out : List Msg

/-- The function `cmdline`, on the sequence of options that `getopt` yields. -/
def cmdline : List Opt → Globals → List Msg → CmdResult
  | [], g, out => ⟨0, g, out⟩
  | Opt.e v :: rest, g, out =>
      let delay_ms_temp : Nat := (v % (2 ^ 64 : Int)).toNat
      if 50 ≤ delay_ms_temp then
        cmdline rest { g with delay_us := (delay_ms_temp * 1000) % 2 ^ 64 } out
      else ⟨-1, g, out ++ [Msg.delay_too_small]⟩
  | Opt.d v :: rest, g, out =>
      let g' := { g with duration := v }
      if Dbl.le v Dbl.zero then ⟨-1, g', out ++ [Msg.duration_not_positive]⟩
      else cmdline rest g' out
  | Opt.f optarg :: rest, g, out =>
      let r := apply_tokens (strtok_tokens optarg) g.fields_to_render
      let g' := { g with fields_to_render := r.2 }
      match r.1 with
      | some each => ⟨-1, g', out ++ [Msg.unknown_field each, Msg.show_fopts]⟩
      | none => cmdline rest g' out
  | Opt.F :: _, g, out => ⟨-1, g, out ++ [Msg.show_fopts, Msg.usage]⟩
  | Opt.other :: _, g, out => ⟨-1, g, out ++ [Msg.usage]⟩

/-- How `main` ends. -/
inductive MainOutcome where
  | usage_only
  | init_failed
  | cmdline_failed (ret : Int) (out : List Msg)
  | sampled (g : Globals)

/-- The function `main`: `do_print_energy_info` runs only when `cmdline` returned 0;
it then reads the globals that `cmdline` left. -/
def main (argc : Nat) (init_rapl : Int) (opts : List Opt) : MainOutcome :=
  if argc < 2 then MainOutcome.usage_only
  else if init_rapl ≠ 0 then MainOutcome.init_failed
  else
    let r := cmdline opts initial_globals []
    if r.ret ≠ 0 then MainOutcome.cmdline_failed r.ret r.out
    else MainOutcome.sampled r.globals

/-- The function `do_print_energy_info` up to the end of the `while` loop: the header
columns, then for each pass the columns of the data line and the state whose
values they print. -/
def do_print_energy_info (hw : Hardware) (g : Globals) (num_node : Nat)
    (stack : SampleArrays) (rd0 : Reads) (now total0 : Dbl) (ticks : List Tick) :
    List Col × List (List Col × LoopState) :=
  (header_cols hw g.fields_to_render num_node,
    (sampling_loop hw num_node g.duration (loop_entry hw num_node stack rd0 now total0) ticks).map
      fun s => (row_cols hw g.fields_to_render num_node, s))

/-! ## Reading the selection -/

/-- The spellings of the sixteen enumerators of `enum fields`, in declaration
order. -/
def field_names : List (List Char) :=
  fields.map fun e => e.1.data

/-- The value of the enumerator that a token spells, if it spells one. -/
def token_value (each : List Char) : Option Nat :=
  (fields.find? fun e => decide (each = e.1.data)).map fun e => e.2

/-- Whether the spelling of enumerator number `k` is among the tokens `ts`. -/
def requested (ts : List (List Char)) (k : Nat) : Bool :=
  match fields[k]? with
  | some e => decide (e.1.data ∈ ts)
  | none => false

/-- The column that the header prints for entry `k` and node `i` when the entry is
selected: a field without a domain is printed for node 0 only, a field with a
domain for every node if the domain is supported. -/
def header_col (hw : Hardware) (i k : Nat) : List Col :=
  match column_headers[k]? with
  | none => []
  | some (_, none) => if 0 = i then [⟨k, none⟩] else []
  | some (_, some hsd) => if hw.is_supported_domain hsd then [⟨k, some i⟩] else []

/-- The columns of the data line that are printed before the node loop. -/
def row_time_cols (fields_to_render : Nat) : List Col :=
  (if selected fields_to_render 0 then [⟨0, none⟩] else []) ++
  (if selected fields_to_render 1 then [⟨1, none⟩] else []) ++
  (if selected fields_to_render 2 then [⟨2, none⟩] else [])

/-! ## Views of the sampling pass -/

/-- The four array entries of one (node, domain) pair. -/
def cell_of (a : SampleArrays) (i domain : Nat) : Dbl × Dbl × Dbl × Dbl :=
  (a.prev_sample i domain, a.power_watt i domain, a.cum_energy_J i domain,
    a.cum_energy_mWh i domain)

/-- Effect of `sample_cell` on the entries of its own (node, domain) pair. -/
def step_of (hw : Hardware) (rd : Reads) (iv : Dbl) (i domain : Nat)
    (c : Dbl × Dbl × Dbl × Dbl) : Dbl × Dbl × Dbl × Dbl :=
  if hw.is_supported_domain domain then
    (get_rapl_energy_info rd domain i,
     Dbl.div (corrected_delta hw (get_rapl_energy_info rd domain i) c.1) iv,
     Dbl.add c.2.2.1 (corrected_delta hw (get_rapl_energy_info rd domain i) c.1),
     Dbl.div (Dbl.add c.2.2.1 (corrected_delta hw (get_rapl_energy_info rd domain i) c.1))
       (Dbl.fin (18 / 5)))
  else c

/-- A value that an IEEE division by zero yields. -/
def Dbl.is_special : Dbl → Bool
  | Dbl.fin _ => false
  | _ => true

/-! ## Concrete inputs -/

/-- A machine on which only the Package domain is present, with a wraparound
modulus of 1000 J. -/
def hw_pkg_only : Hardware :=
  { is_supported_domain := fun domain => domain == RAPL_PKG
    GetMaxEnergyStatusJoules := Dbl.fin 1000 }

/-- A machine on which the four domains are present. -/
def hw_all : Hardware :=
  { is_supported_domain := fun _ => true
    GetMaxEnergyStatusJoules := Dbl.fin 1000 }

/-- A round of reads in which every call succeeds and stores `v`. -/
def reads_const (v : ℚ) : Reads :=
  { get_pkg_total_energy_consumed := fun _ => ⟨0, some (Dbl.fin v)⟩
    get_pp0_total_energy_consumed := fun _ => ⟨0, some (Dbl.fin v)⟩
    get_pp1_total_energy_consumed := fun _ => ⟨0, some (Dbl.fin v)⟩
    get_dram_total_energy_consumed := fun _ => ⟨0, some (Dbl.fin v)⟩
    uninit := fun _ _ => Dbl.nan }

/-- A round of reads in which the Package read fails with `MY_ERROR` and stores
nothing, while the local of `get_rapl_energy_info` happens to hold `stale`. -/
def reads_failing (stale : ℚ) : Reads :=
  { get_pkg_total_energy_consumed := fun _ => ⟨MY_ERROR, none⟩
    get_pp0_total_energy_consumed := fun _ => ⟨MY_ERROR, none⟩
    get_pp1_total_energy_consumed := fun _ => ⟨MY_ERROR, none⟩
    get_dram_total_energy_consumed := fun _ => ⟨MY_ERROR, none⟩
    uninit := fun _ _ => Dbl.fin stale }

/-- Arrays whose `prev_sample` entries all hold `prev` and whose `cum_energy_J`
entries all hold `cum`. -/
def arrays_const (prev cum : Dbl) : SampleArrays :=
  { prev_sample := fun _ _ => prev
    power_watt := fun _ _ => Dbl.fin 0
    cum_energy_J := fun _ _ => cum
    cum_energy_mWh := fun _ _ => Dbl.fin 0 }

/-- A pass of the loop at clock `now` (before and after the reads) in which every
read stores `v`. -/
def tick_const (now v : ℚ) : Tick :=
  { interval_start := Dbl.fin now, reads := reads_const v, end_time := Dbl.fin now }

/-! ## Frame lemmas for the sampling pass -/

theorem cell_of_sample_cell (hw : Hardware) (rd : Reads) (iv : Dbl) (a : SampleArrays)
    (i domain i' d' : Nat) :
    cell_of (sample_cell hw rd iv a i domain) i' d' =
      if i' = i ∧ d' = domain then step_of hw rd iv i domain (cell_of a i domain)
      else cell_of a i' d' := by
  unfold sample_cell step_of cell_of
  by_cases hs : hw.is_supported_domain domain = true
  · by_cases h : i' = i ∧ d' = domain
    · obtain ⟨rfl, rfl⟩ := h
      simp [hs, set2]
    · simp [hs, set2, h]
  · by_cases h : i' = i ∧ d' = domain
    · obtain ⟨rfl, rfl⟩ := h
      simp [hs]
    · simp [hs, h]

theorem cell_of_foldl_domains (hw : Hardware) (rd : Reads) (iv : Dbl) (i i' d' : Nat)
    (l : List Nat) (hl : l.Nodup) (a : SampleArrays) :
    cell_of (l.foldl (fun acc domain => sample_cell hw rd iv acc i domain) a) i' d' =
      if i' = i ∧ d' ∈ l then step_of hw rd iv i d' (cell_of a i d')
      else cell_of a i' d' := by
  induction l generalizing a with
  | nil => simp
  | cons d l ih =>
    have hd : d ∉ l := (List.nodup_cons.mp hl).1
    rw [List.foldl_cons, ih (List.nodup_cons.mp hl).2]
    simp only [cell_of_sample_cell]
    by_cases hi : i' = i
    · subst hi
      by_cases hm : d' ∈ l
      · have hne : d' ≠ d := fun h => hd (h ▸ hm)
        simp [hm, hne]
      · by_cases he : d' = d
        · subst he
          simp [hm]
        · simp [hm, he]
    · simp [hi]

theorem cell_of_sample_node (hw : Hardware) (rd : Reads) (iv : Dbl) (a : SampleArrays)
    (i i' d' : Nat) :
    cell_of (sample_node hw rd iv a i) i' d' =
      if i' = i ∧ d' < RAPL_NR_DOMAIN then step_of hw rd iv i d' (cell_of a i d')
      else cell_of a i' d' := by
  unfold sample_node
  rw [cell_of_foldl_domains hw rd iv i i' d' _ (List.nodup_range _)]
  simp [List.mem_range]

theorem cell_of_foldl_nodes (hw : Hardware) (rd : Reads) (iv : Dbl) (i' d' : Nat)
    (l : List Nat) (hl : l.Nodup) (a : SampleArrays) :
    cell_of (l.foldl (fun acc i => sample_node hw rd iv acc i) a) i' d' =
      if i' ∈ l ∧ d' < RAPL_NR_DOMAIN then step_of hw rd iv i' d' (cell_of a i' d')
      else cell_of a i' d' := by
  induction l generalizing a with
  | nil => simp
  | cons i l ih =>
    have hd : i ∉ l := (List.nodup_cons.mp hl).1
    rw [List.foldl_cons, ih (List.nodup_cons.mp hl).2]
    simp only [cell_of_sample_node]
    by_cases hm : i' ∈ l
    · have hne : i' ≠ i := fun h => hd (h ▸ hm)
      simp [hm, hne]
    · by_cases he : i' = i
      · subst he
        simp [hm]
      · simp [hm, he]

/-- After the sampling pass, the entries of a (node, domain) pair inside the loop
bounds are those of one `sample_cell` step on the entries before the pass. -/
theorem cell_of_sample_all (hw : Hardware) (rd : Reads) (iv : Dbl) (num_node : Nat)
    (a : SampleArrays) (i domain : Nat) (hi : i < num_node) (hd : domain < RAPL_NR_DOMAIN) :
    cell_of (sample_all hw rd iv num_node a) i domain =
      step_of hw rd iv i domain (cell_of a i domain) := by
  unfold sample_all
  rw [cell_of_foldl_nodes hw rd iv i domain _ (List.nodup_range _)]
  simp [List.mem_range, hi, hd]

/-! ## The accumulator -/

theorem Dbl.lt_zero_of_le (x : Dbl) (h : Dbl.le Dbl.zero x = true) :
    Dbl.lt x Dbl.zero = false := by
  cases x <;> simp_all [Dbl.le, Dbl.lt, Dbl.zero]

theorem sample_all_prev (hw : Hardware) (rd : Reads) (iv : Dbl) (num_node : Nat)
    (a : SampleArrays) (i domain : Nat) (hi : i < num_node) (hd : domain < RAPL_NR_DOMAIN)
    (hs : hw.is_supported_domain domain = true) :
    (sample_all hw rd iv num_node a).prev_sample i domain = get_rapl_energy_info rd domain i := by
  have h := congrArg (fun c => c.1) (cell_of_sample_all hw rd iv num_node a i domain hi hd)
  simpa [cell_of, step_of, hs] using h

theorem sample_all_power (hw : Hardware) (rd : Reads) (iv : Dbl) (num_node : Nat)
    (a : SampleArrays) (i domain : Nat) (hi : i < num_node) (hd : domain < RAPL_NR_DOMAIN)
    (hs : hw.is_supported_domain domain = true) :
    (sample_all hw rd iv num_node a).power_watt i domain =
      Dbl.div (corrected_delta hw (get_rapl_energy_info rd domain i) (a.prev_sample i domain))
        iv := by
  have h := congrArg (fun c => c.2.1) (cell_of_sample_all hw rd iv num_node a i domain hi hd)
  simpa [cell_of, step_of, hs] using h

theorem sample_all_cum (hw : Hardware) (rd : Reads) (iv : Dbl) (num_node : Nat)
    (a : SampleArrays) (i domain : Nat) (hi : i < num_node) (hd : domain < RAPL_NR_DOMAIN)
    (hs : hw.is_supported_domain domain = true) :
    (sample_all hw rd iv num_node a).cum_energy_J i domain =
      Dbl.add (a.cum_energy_J i domain)
        (corrected_delta hw (get_rapl_energy_info rd domain i) (a.prev_sample i domain)) := by
  have h := congrArg (fun c => c.2.2.1) (cell_of_sample_all hw rd iv num_node a i domain hi hd)
  simpa [cell_of, step_of, hs] using h

/-- C1: in one sampling pass, for every (node, domain) pair inside the loop
bounds whose domain is supported, with `r` the new reading, `p` the stored
previous reading and `M` the wraparound modulus: the delta is `r - p` when
`r - p >= 0` and `r - p + M` when `r - p < 0`; the stored previous reading
becomes `r`; the cumulative energy grows by exactly that delta. -/
theorem accumulator_step (hw : Hardware) (rd : Reads) (iv : Dbl) (num_node : Nat)
    (a : SampleArrays) (i domain : Nat) (hi : i < num_node) (hd : domain < RAPL_NR_DOMAIN)
    (hs : hw.is_supported_domain domain = true) :
    (Dbl.le Dbl.zero (Dbl.sub (get_rapl_energy_info rd domain i) (a.prev_sample i domain)) = true →
      corrected_delta hw (get_rapl_energy_info rd domain i) (a.prev_sample i domain) =
        Dbl.sub (get_rapl_energy_info rd domain i) (a.prev_sample i domain)) ∧
    (Dbl.lt (Dbl.sub (get_rapl_energy_info rd domain i) (a.prev_sample i domain)) Dbl.zero = true →
      corrected_delta hw (get_rapl_energy_info rd domain i) (a.prev_sample i domain) =
        Dbl.add (Dbl.sub (get_rapl_energy_info rd domain i) (a.prev_sample i domain))
          hw.GetMaxEnergyStatusJoules) ∧
    (sample_all hw rd iv num_node a).prev_sample i domain = get_rapl_energy_info rd domain i ∧
    (sample_all hw rd iv num_node a).cum_energy_J i domain =
      Dbl.add (a.cum_energy_J i domain)
        (corrected_delta hw (get_rapl_energy_info rd domain i) (a.prev_sample i domain)) := by
  refine ⟨?_, ?_, sample_all_prev hw rd iv num_node a i domain hi hd hs,
    sample_all_cum hw rd iv num_node a i domain hi hd hs⟩
  · intro h
    simp [corrected_delta, Dbl.lt_zero_of_le _ h]
  · intro h
    simp [corrected_delta, h]

/-- C1, the wraparound scenario: modulus 1000, previous reading 995, new reading 10,
cumulative energy 5 so far: the delta is `10 - 995 + 1000 = 15` and the cumulative
energy becomes 20. -/
theorem accumulator_step_witness :
    (0 < 1 ∧ 0 < RAPL_NR_DOMAIN ∧ hw_pkg_only.is_supported_domain 0 = true) ∧
    corrected_delta hw_pkg_only (get_rapl_energy_info (reads_const 10) 0 0)
      ((arrays_const (Dbl.fin 995) (Dbl.fin 5)).prev_sample 0 0) = Dbl.fin 15 ∧
    (sample_all hw_pkg_only (reads_const 10) (Dbl.fin 1) 1
      (arrays_const (Dbl.fin 995) (Dbl.fin 5))).prev_sample 0 0 = Dbl.fin 10 ∧
    (sample_all hw_pkg_only (reads_const 10) (Dbl.fin 1) 1
      (arrays_const (Dbl.fin 995) (Dbl.fin 5))).cum_energy_J 0 0 = Dbl.fin 20 := by
  have h := accumulator_step hw_pkg_only (reads_const 10) (Dbl.fin 1) 1
    (arrays_const (Dbl.fin 995) (Dbl.fin 5)) 0 0 (by decide) (by decide) rfl
  have hd : corrected_delta hw_pkg_only (get_rapl_energy_info (reads_const 10) 0 0)
      ((arrays_const (Dbl.fin 995) (Dbl.fin 5)).prev_sample 0 0) = Dbl.fin 15 := by
    rw [h.2.1 (by
      norm_num [get_rapl_energy_info, get_rapl_energy_info_locals, reads_const, arrays_const, PKG,
        Dbl.sub, Dbl.neg, Dbl.add, Dbl.lt, Dbl.zero])]
    simp [get_rapl_energy_info, get_rapl_energy_info_locals, reads_const, arrays_const, PKG,
      hw_pkg_only, Dbl.sub, Dbl.neg, Dbl.add]
    norm_num
  refine ⟨⟨by decide, by decide, rfl⟩, hd, ?_, ?_⟩
  · rw [h.2.2.1]
    simp [get_rapl_energy_info, get_rapl_energy_info_locals, reads_const, PKG]
  · rw [h.2.2.2, hd]
    simp [arrays_const, Dbl.add]
    norm_num

/-- C2 as stated fails: with modulus 1000, previous reading 5000 and new reading 10
the corrected delta is `-3990`, not `>= 0`, and the cumulative energy of the
pair goes down from 0 to `-3990` in that pass. -/
theorem corrected_delta_negative :
    corrected_delta hw_pkg_only (get_rapl_energy_info (reads_const 10) 0 0)
        ((arrays_const (Dbl.fin 5000) (Dbl.fin 0)).prev_sample 0 0) = Dbl.fin (-3990) ∧
      Dbl.le Dbl.zero (corrected_delta hw_pkg_only (get_rapl_energy_info (reads_const 10) 0 0)
        ((arrays_const (Dbl.fin 5000) (Dbl.fin 0)).prev_sample 0 0)) = false ∧
      Dbl.le ((arrays_const (Dbl.fin 5000) (Dbl.fin 0)).cum_energy_J 0 0)
        ((sample_all hw_pkg_only (reads_const 10) (Dbl.fin 1) 1
          (arrays_const (Dbl.fin 5000) (Dbl.fin 0))).cum_energy_J 0 0) = false := by
  have hd : corrected_delta hw_pkg_only (get_rapl_energy_info (reads_const 10) 0 0)
      ((arrays_const (Dbl.fin 5000) (Dbl.fin 0)).prev_sample 0 0) = Dbl.fin (-3990) := by
    norm_num [corrected_delta, get_rapl_energy_info, get_rapl_energy_info_locals, reads_const,
      arrays_const, PKG, hw_pkg_only, Dbl.sub, Dbl.neg, Dbl.add, Dbl.lt, Dbl.zero]
  refine ⟨hd, ?_, ?_⟩
  · rw [hd]
    norm_num [Dbl.le, Dbl.zero]
  · rw [sample_all_cum _ _ _ _ _ 0 0 (by decide) (by decide) rfl, hd]
    norm_num [arrays_const, Dbl.add, Dbl.le]

/-- C2, amended: when the new reading `r`, the previous reading `p`, the modulus
`M` and the cumulative energy are finite and the reading has not gone back by
more than one modulus (`p - r <= M`, as when both readings lie in `[0, M]`),
the corrected delta is `>= 0` and the cumulative energy after the pass is not
below the one before. -/
theorem corrected_delta_nonneg (hw : Hardware) (rd : Reads) (iv : Dbl) (num_node : Nat)
    (a : SampleArrays) (i domain : Nat) (r p M c : ℚ)
    (hi : i < num_node) (hd : domain < RAPL_NR_DOMAIN)
    (hs : hw.is_supported_domain domain = true)
    (hr : get_rapl_energy_info rd domain i = Dbl.fin r)
    (hp : a.prev_sample i domain = Dbl.fin p)
    (hM : hw.GetMaxEnergyStatusJoules = Dbl.fin M)
    (hc : a.cum_energy_J i domain = Dbl.fin c)
    (hwrap : p - r ≤ M) :
    Dbl.le Dbl.zero (corrected_delta hw (get_rapl_energy_info rd domain i)
        (a.prev_sample i domain)) = true ∧
      Dbl.le (a.cum_energy_J i domain)
        ((sample_all hw rd iv num_node a).cum_energy_J i domain) = true := by
  rw [sample_all_cum hw rd iv num_node a i domain hi hd hs, hr, hp, hc]
  by_cases hneg : r + -p < 0
  · have h1 : 0 ≤ r + -p + M := by linarith
    simp [corrected_delta, hM, Dbl.sub, Dbl.neg, Dbl.add, Dbl.lt, Dbl.le, Dbl.zero, hneg, h1]
  · have h1 : 0 ≤ r + -p := not_lt.mp hneg
    simp [corrected_delta, Dbl.sub, Dbl.neg, Dbl.add, Dbl.lt, Dbl.le, Dbl.zero, hneg, h1]

/-- C2, amended, at modulus 1000, previous reading 995, new reading 10. -/
theorem corrected_delta_nonneg_witness :
    ((0 < 1 ∧ 0 < RAPL_NR_DOMAIN ∧ hw_pkg_only.is_supported_domain 0 = true) ∧
      get_rapl_energy_info (reads_const 10) 0 0 = Dbl.fin 10 ∧
      (arrays_const (Dbl.fin 995) (Dbl.fin 5)).prev_sample 0 0 = Dbl.fin 995 ∧
      hw_pkg_only.GetMaxEnergyStatusJoules = Dbl.fin 1000 ∧
      (arrays_const (Dbl.fin 995) (Dbl.fin 5)).cum_energy_J 0 0 = Dbl.fin 5 ∧
      (995 : ℚ) - 10 ≤ 1000) ∧
    (Dbl.le Dbl.zero (corrected_delta hw_pkg_only (get_rapl_energy_info (reads_const 10) 0 0)
        ((arrays_const (Dbl.fin 995) (Dbl.fin 5)).prev_sample 0 0)) = true ∧
      Dbl.le ((arrays_const (Dbl.fin 995) (Dbl.fin 5)).cum_energy_J 0 0)
        ((sample_all hw_pkg_only (reads_const 10) (Dbl.fin 1) 1
          (arrays_const (Dbl.fin 995) (Dbl.fin 5))).cum_energy_J 0 0) = true) :=
  ⟨⟨⟨by decide, by decide, rfl⟩, rfl, rfl, rfl, rfl, by norm_num⟩,
    corrected_delta_nonneg hw_pkg_only (reads_const 10) (Dbl.fin 1) 1
      (arrays_const (Dbl.fin 995) (Dbl.fin 5)) 0 0 10 995 1000 5 (by decide) (by decide) rfl
      rfl rfl rfl rfl (by norm_num)⟩

/-- C3 on the code: one node, Package only, the seeding read 100 J, then 150, 205 and
260 J at 1-second intervals, and an uninitialised `cum_energy_J[0][0]` that
holds 7: the three rows report 57, 112 and 167 J, where the sums of the deltas
are 50, 105 and 160 J. -/
theorem cumulative_starts_from_stack_content :
    (sampling_loop hw_pkg_only 1 (Dbl.fin 3)
        (loop_entry hw_pkg_only 1 (arrays_const (Dbl.fin 0) (Dbl.fin 7)) (reads_const 100)
          (Dbl.fin 0) (Dbl.fin 0))
        [tick_const 1 150, tick_const 2 205, tick_const 3 260]).map
        (fun s => (s.arrays.cum_energy_J 0 0, s.arrays.power_watt 0 0)) =
      [(Dbl.fin 57, Dbl.fin 50), (Dbl.fin 112, Dbl.fin 55), (Dbl.fin 167, Dbl.fin 55)] := by
  norm_num [sampling_loop, sampling_iteration, loop_entry, read_initial, sample_all,
    sample_node, sample_cell, corrected_delta, get_rapl_energy_info,
    get_rapl_energy_info_locals, reads_const, arrays_const, tick_const, hw_pkg_only, set2,
    List.range_succ, RAPL_NR_DOMAIN, RAPL_PKG, PKG, PP0, PP1, DRAM, Dbl.sub, Dbl.neg, Dbl.add,
    Dbl.div, Dbl.lt, Dbl.le, Dbl.zero]

theorem Dbl.div_zero_special (x : Dbl) : Dbl.is_special (Dbl.div x (Dbl.fin 0)) = true := by
  cases x with
  | fin a =>
    by_cases h0 : a = 0
    · simp [Dbl.div, h0, Dbl.is_special]
    · by_cases hp : 0 < a <;> simp [Dbl.div, h0, hp, Dbl.is_special]
  | pinf => simp [Dbl.div, Dbl.is_special]
  | ninf => simp [Dbl.div, Dbl.is_special]
  | nan => simp [Dbl.div, Dbl.is_special]

/-- C8 as stated fails: a pass whose clock after the sleep equals the clock at the
end of the previous reads (measured interval 0) with a delta of 50 J does not
fail; it stores `+inf` in `power_watt`, adds the delta to the cumulative energy
and goes on to print the row. -/
theorem zero_interval_yields_infinity :
    Dbl.sub (tick_const 0 150).interval_start
        (loop_entry hw_pkg_only 1 (arrays_const (Dbl.fin 0) (Dbl.fin 0)) (reads_const 100)
          (Dbl.fin 0) (Dbl.fin 0)).end_time = Dbl.fin 0 ∧
      (sampling_loop hw_pkg_only 1 (Dbl.fin 3600)
        (loop_entry hw_pkg_only 1 (arrays_const (Dbl.fin 0) (Dbl.fin 0)) (reads_const 100)
          (Dbl.fin 0) (Dbl.fin 0))
        [tick_const 0 150]).map
        (fun s => (s.arrays.power_watt 0 0, s.arrays.cum_energy_J 0 0)) =
      [(Dbl.pinf, Dbl.fin 50)] := by
  norm_num [sampling_loop, sampling_iteration, loop_entry, read_initial, sample_all,
    sample_node, sample_cell, corrected_delta, get_rapl_energy_info,
    get_rapl_energy_info_locals, reads_const, arrays_const, tick_const, hw_pkg_only, set2,
    List.range_succ, RAPL_NR_DOMAIN, RAPL_PKG, PKG, PP0, PP1, DRAM, Dbl.sub, Dbl.neg, Dbl.add,
    Dbl.div, Dbl.lt, Dbl.le, Dbl.zero]

/-- C8, amended: in every pass and for every supported (node, domain) inside the
loop bounds, `power_watt` is the IEEE quotient of the corrected delta by the
measured interval, which is the clock read after the sleep minus the clock read
at the end of the previous pass (the nominal delay is not an input); the `end`
of the pass is the clock read after its reads; and when the measured interval
is exactly 0 nothing fails: the pass completes and `power_watt` holds an
infinity or a NaN. -/
theorem power_is_delta_over_measured_interval (hw : Hardware) (num_node : Nat)
    (s : LoopState) (t : Tick) (i domain : Nat) (hi : i < num_node)
    (hd : domain < RAPL_NR_DOMAIN) (hs : hw.is_supported_domain domain = true) :
    (sampling_iteration hw num_node s t).arrays.power_watt i domain =
        Dbl.div
          (corrected_delta hw (get_rapl_energy_info t.reads domain i)
            (s.arrays.prev_sample i domain))
          (Dbl.sub t.interval_start s.end_time) ∧
      (sampling_iteration hw num_node s t).end_time = t.end_time ∧
      (Dbl.sub t.interval_start s.end_time = Dbl.fin 0 →
        Dbl.is_special ((sampling_iteration hw num_node s t).arrays.power_watt i domain)
          = true) := by
  have h : (sampling_iteration hw num_node s t).arrays.power_watt i domain =
      Dbl.div
        (corrected_delta hw (get_rapl_energy_info t.reads domain i)
          (s.arrays.prev_sample i domain))
        (Dbl.sub t.interval_start s.end_time) := by
    unfold sampling_iteration
    exact sample_all_power hw t.reads _ num_node s.arrays i domain hi hd hs
  refine ⟨h, rfl, ?_⟩
  intro h0
  rw [h, h0]
  exact Dbl.div_zero_special _

/-- C8, amended, on one node with Package only: readings 100 then 150 J, clocks 0
and 2 s: the power is `50 / 2 = 25` W. -/
theorem power_is_delta_over_measured_interval_witness :
    (0 < 1 ∧ 0 < RAPL_NR_DOMAIN ∧ hw_pkg_only.is_supported_domain 0 = true) ∧
      (sampling_iteration hw_pkg_only 1
        ⟨arrays_const (Dbl.fin 100) (Dbl.fin 0), Dbl.fin 0, Dbl.fin 0, Dbl.fin 0⟩
        (tick_const 2 150)).arrays.power_watt 0 0 = Dbl.fin 25 := by
  have h := power_is_delta_over_measured_interval hw_pkg_only 1
    ⟨arrays_const (Dbl.fin 100) (Dbl.fin 0), Dbl.fin 0, Dbl.fin 0, Dbl.fin 0⟩
    (tick_const 2 150) 0 0 (by decide) (by decide) rfl
  refine ⟨⟨by decide, by decide, rfl⟩, ?_⟩
  rw [h.1]
  norm_num [corrected_delta, get_rapl_energy_info, get_rapl_energy_info_locals, reads_const,
    arrays_const, tick_const, hw_pkg_only, PKG, Dbl.sub, Dbl.neg, Dbl.add, Dbl.div, Dbl.lt,
    Dbl.zero]

/-- C10 on the code: when the Package read returns `MY_ERROR` and stores nothing,
`get_rapl_energy_info` ends its `switch` with `err = MY_ERROR` and returns the
content of its uninitialised local (here 42); the pass takes 42 as the reading:
with a previous reading of 100 and modulus 1000 it stores 42 as `prev_sample`
and adds `42 - 100 + 1000 = 942` J to the cumulative energy.  The same holds for
a domain outside PKG, PP0, PP1, DRAM (the `default` branch). -/
theorem failed_read_is_used_as_reading :
    get_rapl_energy_info_locals (reads_failing 42) PKG 0 = (MY_ERROR, Dbl.fin 42) ∧
      get_rapl_energy_info (reads_failing 42) PKG 0 = Dbl.fin 42 ∧
      get_rapl_energy_info_locals (reads_const 150) 4 0 = (MY_ERROR, Dbl.nan) ∧
      (sampling_loop hw_pkg_only 1 (Dbl.fin 3600)
        ⟨arrays_const (Dbl.fin 100) (Dbl.fin 0), Dbl.fin 0, Dbl.fin 0, Dbl.fin 0⟩
        [⟨Dbl.fin 1, reads_failing 42, Dbl.fin 1⟩]).map
        (fun s => (s.arrays.prev_sample 0 0, s.arrays.cum_energy_J 0 0)) =
      [(Dbl.fin 42, Dbl.fin 942)] := by
  refine ⟨rfl, rfl, rfl, ?_⟩
  norm_num [sampling_loop, sampling_iteration, sample_all,
    sample_node, sample_cell, corrected_delta, get_rapl_energy_info,
    get_rapl_energy_info_locals, reads_failing, arrays_const, hw_pkg_only, set2,
    List.range_succ, RAPL_NR_DOMAIN, RAPL_PKG, PKG, PP0, PP1, DRAM, Dbl.sub, Dbl.neg, Dbl.add,
    Dbl.div, Dbl.lt, Dbl.le, Dbl.zero]

/-! ## `cmdline` -/

theorem selected_eq_testBit (m k : Nat) : selected m k = m.testBit k := by
  unfold selected
  rw [Nat.one_shiftLeft, Nat.two_pow_and]
  cases m.testBit k <;> simp

theorem apply_fold_false (each : List Char) (l : List (String × Nat)) (m : Nat) :
    l.foldl
      (fun st e => if st.1 && decide (each = e.1.data) then (false, st.2 ||| e.2) else st)
      (false, m) = (false, m) := by
  induction l with
  | nil => rfl
  | cons e l ih =>
    rw [List.foldl_cons]
    simpa only [Bool.false_and, Bool.false_eq_true, ↓reduceIte] using ih

theorem apply_fold_true (each : List Char) (l : List (String × Nat)) (m : Nat) :
    l.foldl
      (fun st e => if st.1 && decide (each = e.1.data) then (false, st.2 ||| e.2) else st)
      (true, m) =
      match (l.find? fun e => decide (each = e.1.data)).map fun e => e.2 with
      | some v => (false, m ||| v)
      | none => (true, m) := by
  induction l with
  | nil => rfl
  | cons e l ih =>
    rw [List.foldl_cons, List.find?_cons]
    by_cases h : each = e.1.data
    · have hd : decide (each = e.1.data) = true := decide_eq_true h
      simp only [hd, Bool.and_self, ↓reduceIte, Option.map_some', apply_fold_false]
    · have hd : decide (each = e.1.data) = false := decide_eq_false h
      simp only [hd, Bool.and_false, Bool.false_eq_true, ↓reduceIte]
      exact ih

theorem apply_token_eq (each : List Char) (m : Nat) :
    apply_token each m =
      match token_value each with
      | some v => (false, m ||| v)
      | none => (true, m) :=
  apply_fold_true each fields m

theorem token_value_eq_none (each : List Char) :
    token_value each = none ↔ each ∉ field_names := by
  simp only [token_value, field_names, Option.map_eq_none', List.find?_eq_none, List.mem_map,
    decide_eq_true_eq, not_exists, not_and]
  constructor
  · intro h e he hc
    exact h e he hc.symm
  · intro h e he hc
    exact h e he hc.symm

theorem apply_tokens_fst (ts : List (List Char)) (m : Nat) :
    (apply_tokens ts m).1 = ts.find? fun t => decide (t ∉ field_names) := by
  induction ts generalizing m with
  | nil => rfl
  | cons t ts ih =>
    by_cases h : t ∈ field_names
    · have hv : token_value t ≠ none := fun hn => (token_value_eq_none t).mp hn h
      obtain ⟨v, hv⟩ := Option.ne_none_iff_exists'.mp hv
      simp [apply_tokens, apply_token_eq, hv, List.find?, h, ih]
    · have hv : token_value t = none := (token_value_eq_none t).mpr h
      simp [apply_tokens, apply_token_eq, hv, List.find?, h]

theorem apply_tokens_snd (ts : List (List Char)) (m : Nat)
    (hvalid : ∀ t ∈ ts, t ∈ field_names) :
    (apply_tokens ts m).2 = ts.foldl (fun acc t => acc ||| (token_value t).getD 0) m := by
  induction ts generalizing m with
  | nil => rfl
  | cons t ts ih =>
    have h : t ∈ field_names := hvalid t (List.mem_cons_self _ _)
    have hv : token_value t ≠ none := fun hn => (token_value_eq_none t).mp hn h
    obtain ⟨v, hv⟩ := Option.ne_none_iff_exists'.mp hv
    have ih' := ih (m ||| v) (fun t ht => hvalid t (List.mem_cons_of_mem _ ht))
    simp [apply_tokens, apply_token_eq, hv, ih']

theorem testBit_foldl_or (g : List Char → Nat) (ts : List (List Char)) (m k : Nat) :
    (ts.foldl (fun acc t => acc ||| g t) m).testBit k =
      (m.testBit k || ts.any fun t => (g t).testBit k) := by
  induction ts generalizing m with
  | nil => simp
  | cons t ts ih => simp [ih, Nat.testBit_or, Bool.or_assoc]

theorem token_bit (t : List Char) (ht : t ∈ field_names) (k : Nat) :
    ((token_value t).getD 0).testBit k =
      decide ((fields[k]?).map (fun e => e.1.data) = some t) := by
  simp only [field_names, fields, List.map, List.mem_cons, List.mem_singleton,
    List.not_mem_nil, or_false] at ht
  by_cases hk : k < 16
  · rcases ht with rfl | rfl | rfl | rfl | rfl | rfl | rfl | rfl | rfl | rfl | rfl | rfl |
      rfl | rfl | rfl | rfl <;> interval_cases k <;> decide
  · have hnone : fields[k]? = none := List.getElem?_eq_none (by simpa [fields] using hk)
    have hpow : (2 : Nat) ^ 16 ≤ 2 ^ k := Nat.pow_le_pow_right (by decide) (not_lt.mp hk)
    rw [hnone]
    rcases ht with rfl | rfl | rfl | rfl | rfl | rfl | rfl | rfl | rfl | rfl | rfl | rfl |
      rfl | rfl | rfl | rfl <;>
      simpa using Nat.testBit_lt_two_pow (lt_of_lt_of_le (by decide) hpow)

theorem cmdline_f_eq (optarg : List Char) :
    cmdline [Opt.f optarg] initial_globals [] =
      match (apply_tokens (strtok_tokens optarg) 0).1 with
      | some each =>
          ⟨-1, { initial_globals with
                  fields_to_render := (apply_tokens (strtok_tokens optarg) 0).2 },
            [Msg.unknown_field each, Msg.show_fopts]⟩
      | none =>
          ⟨0, { initial_globals with
                  fields_to_render := (apply_tokens (strtok_tokens optarg) 0).2 }, []⟩ := by
  unfold cmdline
  simp only [initial_globals, List.nil_append]
  cases (apply_tokens (strtok_tokens optarg) 0).1 with
  | none => simp only [cmdline]
  | some each => rfl

theorem selected_apply_tokens (ts : List (List Char)) (hvalid : ∀ t ∈ ts, t ∈ field_names)
    (k : Nat) : selected (apply_tokens ts 0).2 k = requested ts k := by
  rw [selected_eq_testBit, apply_tokens_snd ts 0 hvalid, testBit_foldl_or, Nat.zero_testBit,
    Bool.false_or, Bool.eq_iff_iff, List.any_eq_true]
  unfold requested
  constructor
  · rintro ⟨t, ht, hbit⟩
    rw [token_bit t (hvalid t ht) k] at hbit
    have hk := of_decide_eq_true hbit
    cases hf : fields[k]? with
    | none => rw [hf] at hk; simp at hk
    | some e =>
      rw [hf] at hk
      simp only [Option.map_some', Option.some.injEq] at hk
      simp only [hk, ht, decide_True]
  · intro h
    cases hf : fields[k]? with
    | none => rw [hf] at h; simp at h
    | some e =>
      rw [hf] at h
      have hmem : e.1.data ∈ ts := of_decide_eq_true h
      refine ⟨e.1.data, hmem, ?_⟩
      rw [token_bit _ (hvalid _ hmem) k, hf]
      simp

/-- C7: for every `-f` argument, with the tokens that `strtok` cuts at commas:
`cmdline` returns `-1` exactly when some token is not the exact spelling of one
of the sixteen enumerators; it then prints the first such token as the unknown
field and `main` does not reach `do_print_energy_info`; when every token is a
spelling, `cmdline` returns 0 and bit `k` of `fields_to_render` is set exactly
when the spelling of enumerator `k` is among the tokens. -/
theorem cmdline_field_selection (optarg : List Char) :
    ((cmdline [Opt.f optarg] initial_globals []).ret = -1 ↔
        ∃ t ∈ strtok_tokens optarg, t ∉ field_names) ∧
      (∀ t, ((strtok_tokens optarg).find? fun t => decide (t ∉ field_names)) = some t →
        (cmdline [Opt.f optarg] initial_globals []).out =
          [Msg.unknown_field t, Msg.show_fopts]) ∧
      ((∃ t ∈ strtok_tokens optarg, t ∉ field_names) →
        ∀ argc init_rapl g, main argc init_rapl [Opt.f optarg] ≠ MainOutcome.sampled g) ∧
      ((∀ t ∈ strtok_tokens optarg, t ∈ field_names) →
        (cmdline [Opt.f optarg] initial_globals []).ret = 0 ∧
        ∀ k, selected (cmdline [Opt.f optarg] initial_globals []).globals.fields_to_render k =
          requested (strtok_tokens optarg) k) := by
  have hfst := apply_tokens_fst (strtok_tokens optarg) 0
  cases hfind : ((strtok_tokens optarg).find? fun t => decide (t ∉ field_names)) with
  | none =>
    have hvalid : ∀ t ∈ strtok_tokens optarg, t ∈ field_names := by
      intro t ht
      have := List.find?_eq_none.mp hfind t ht
      simpa using this
    have hno : ¬ ∃ t ∈ strtok_tokens optarg, t ∉ field_names := by
      rintro ⟨t, ht, hn⟩
      exact hn (hvalid t ht)
    rw [hfind] at hfst
    have hc := cmdline_f_eq optarg
    rw [hfst] at hc
    refine ⟨?_, ?_, ?_, ?_⟩
    · rw [hc]
      simp only [hno, iff_false]
      decide
    · intro t ht
      exact absurd ht (by simp)
    · intro h
      exact absurd h hno
    · intro _
      rw [hc]
      exact ⟨rfl, selected_apply_tokens _ hvalid⟩
  | some t0 =>
    have hmem : t0 ∈ strtok_tokens optarg := List.mem_of_find?_eq_some hfind
    have hinv : t0 ∉ field_names := by
      have := List.find?_some hfind
      simpa using this
    rw [hfind] at hfst
    have hc := cmdline_f_eq optarg
    rw [hfst] at hc
    refine ⟨?_, ?_, ?_, ?_⟩
    · rw [hc]
      exact ⟨fun _ => ⟨t0, hmem, hinv⟩, fun _ => rfl⟩
    · intro t ht
      rw [hc]
      cases ht
      rfl
    · intro _ argc init_rapl g
      unfold main
      rw [hc]
      by_cases h1 : argc < 2
      · simp [h1]
      · by_cases h2 : init_rapl ≠ 0
        · simp [h1, h2]
        · simp [h1, h2]
    · intro hvalid
      exact absurd (hvalid t0 hmem) hinv

/-- C7 at the argument `energyJ,systime`: both tokens are spellings, `cmdline` returns
0 and exactly bits 0 and 5 are set. -/
theorem cmdline_field_selection_witness :
    (∀ t ∈ strtok_tokens "energyJ,systime".data, t ∈ field_names) ∧
      (cmdline [Opt.f "energyJ,systime".data] initial_globals []).ret = 0 ∧
      (cmdline [Opt.f "energyJ,systime".data] initial_globals []).globals.fields_to_render
        = 33 ∧
      ∀ k, selected
          (cmdline [Opt.f "energyJ,systime".data] initial_globals []).globals.fields_to_render k
        = requested (strtok_tokens "energyJ,systime".data) k :=
  ⟨by decide, ((cmdline_field_selection "energyJ,systime".data).2.2.2 (by decide)).1,
    by decide, ((cmdline_field_selection "energyJ,systime".data).2.2.2 (by decide)).2⟩

/-! ## Header and data line -/

theorem header_entry_eq (hw : Hardware) (m i k : Nat) :
    header_entry hw m i k = if selected m k then header_col hw i k else [] := by
  unfold header_entry header_col
  cases selected m k <;> rfl

theorem header_node_eq (hw : Hardware) (m i : Nat) :
    ((List.range (ENUM_SIZE + 1)).flatMap fun ent => header_entry hw m i ent) =
      (List.range ENUM_SIZE).flatMap fun k =>
        if selected m k then header_col hw i k else [] := by
  rw [List.range_succ, List.flatMap_append, List.flatMap_singleton]
  have h16 : header_entry hw m i ENUM_SIZE = [] := by
    rw [header_entry_eq]
    have : header_col hw i ENUM_SIZE = [] := rfl
    rw [this, ite_self]
  rw [h16, List.append_nil]
  exact List.flatMap_congr fun k _ => header_entry_eq hw m i k

theorem flatMap_first_node (T : List Col) (D : Nat → List Col) (n : Nat) (hn : 1 ≤ n) :
    ((List.range n).flatMap fun i => (if 0 = i then T else []) ++ D i) =
      T ++ (List.range n).flatMap D := by
  induction n, hn using Nat.le_induction with
  | base => simp [List.range_succ]
  | succ n hn ih =>
    have hne : ¬ 0 = n := by omega
    rw [List.range_succ, List.flatMap_append, List.flatMap_append, ih]
    simp [hne]

theorem header_col_time (hw : Hardware) (i k : Nat) (hk : k < 3) :
    header_col hw i k = if 0 = i then [⟨k, none⟩] else [] := by
  interval_cases k <;> rfl

theorem header_col_domain (hw : Hardware) (i domain j : Nat) (hd : domain < RAPL_NR_DOMAIN)
    (hj : j < 3) :
    header_col hw i (domain * 3 + 4 + j) =
      if hw.is_supported_domain domain then [⟨domain * 3 + 4 + j, some i⟩] else [] := by
  unfold RAPL_NR_DOMAIN at hd
  interval_cases domain <;> interval_cases j <;> rfl

theorem chunk_time (c : Prop) [Decidable c] (a0 a1 a2 : Bool) (x y z : Col) (w : List Col)
    (rest rest' : List Col) (h : rest = rest') :
    (if a0 = true then if c then [x] else [] else []) ++
        ((if a1 = true then if c then [y] else [] else []) ++
          ((if a2 = true then if c then [z] else [] else []) ++
            ((if false = true then w else []) ++ rest))) =
      (if c then
          ((if a0 = true then [x] else []) ++ if a1 = true then [y] else []) ++
            if a2 = true then [z] else []
        else []) ++ rest' := by
  subst h
  by_cases hc : c <;> simp [hc]

theorem chunk_last (s a b c : Bool) (x y z f : Col) :
    (if a = true then if s = true then [x] else [] else []) ++
        ((if b = true then if s = true then [y] else [] else []) ++
          (if c = true then if s = true then [z] else [] else [])) =
      (if false = true then [f] else []) ++
        if (!s) = true then []
        else ((if a = true then [x] else []) ++ if b = true then [y] else []) ++
          if c = true then [z] else [] := by
  cases s <;> simp

theorem chunk_domain (s a b c : Bool) (x y z f : Col) (rest rest' : List Col)
    (h : rest = rest') :
    (if a = true then if s = true then [x] else [] else []) ++
        ((if b = true then if s = true then [y] else [] else []) ++
          ((if c = true then if s = true then [z] else [] else []) ++ rest)) =
      ((if false = true then [f] else []) ++
        if (!s) = true then []
        else ((if a = true then [x] else []) ++ if b = true then [y] else []) ++
          if c = true then [z] else []) ++ rest' := by
  subst h
  cases s <;> simp

theorem header_node_split (hw : Hardware) (m i : Nat) (h3 : selected m 3 = false) :
    ((List.range ENUM_SIZE).flatMap fun k =>
        if selected m k then header_col hw i k else []) =
      (if 0 = i then row_time_cols m else []) ++
        (List.range RAPL_NR_DOMAIN).flatMap fun domain => row_cell hw m i domain := by
  have hr16 : List.range ENUM_SIZE = [0, 1, 2, 3, 4, 5, 6, 7, 8, 9, 10, 11, 12, 13, 14, 15] := by
    decide
  have hr4 : List.range RAPL_NR_DOMAIN = [0, 1, 2, 3] := by decide
  have t0 := header_col_time hw i 0 (by decide)
  have t1 := header_col_time hw i 1 (by decide)
  have t2 := header_col_time hw i 2 (by decide)
  have d00 := header_col_domain hw i 0 0 (by decide) (by decide)
  have d01 := header_col_domain hw i 0 1 (by decide) (by decide)
  have d02 := header_col_domain hw i 0 2 (by decide) (by decide)
  have d10 := header_col_domain hw i 1 0 (by decide) (by decide)
  have d11 := header_col_domain hw i 1 1 (by decide) (by decide)
  have d12 := header_col_domain hw i 1 2 (by decide) (by decide)
  have d20 := header_col_domain hw i 2 0 (by decide) (by decide)
  have d21 := header_col_domain hw i 2 1 (by decide) (by decide)
  have d22 := header_col_domain hw i 2 2 (by decide) (by decide)
  have d30 := header_col_domain hw i 3 0 (by decide) (by decide)
  have d31 := header_col_domain hw i 3 1 (by decide) (by decide)
  have d32 := header_col_domain hw i 3 2 (by decide) (by decide)
  norm_num only at d00 d01 d02 d10 d11 d12 d20 d21 d22 d30 d31 d32
  rw [hr16, hr4]
  simp only [List.flatMap_cons, List.flatMap_nil, List.append_nil, row_cell, row_time_cols,
    h3, t0, t1, t2, d00, d01, d02, d10, d11, d12, d20, d21, d22, d30, d31, d32]
  exact chunk_time _ _ _ _ _ _ _ _ _ _
    (chunk_domain _ _ _ _ _ _ _ _ _ _
      (chunk_domain _ _ _ _ _ _ _ _ _ _
        (chunk_domain _ _ _ _ _ _ _ _ _ _ (chunk_last _ _ _ _ _ _ _ _))))

/-- When `ia_freq` is not selected and there is at least one node, a data line has
the columns of the header, in the same order. -/
theorem row_cols_eq_header_cols (hw : Hardware) (m n : Nat) (h3 : selected m 3 = false)
    (hn : 1 ≤ n) : row_cols hw m n = header_cols hw m n := by
  unfold header_cols
  simp only [header_node_eq, header_node_split hw m _ h3]
  rw [flatMap_first_node _ _ n hn]
  rfl

theorem requested_congr (ts ts' : List (List Char)) (h : ∀ t, t ∈ ts ↔ t ∈ ts') (k : Nat) :
    requested ts k = requested ts' k := by
  unfold requested
  cases fields[k]? with
  | none => rfl
  | some e => simp only [h]

theorem mask_of_valid (optarg : List Char)
    (hvalid : ∀ t ∈ strtok_tokens optarg, t ∈ field_names) (k : Nat) :
    selected (cmdline [Opt.f optarg] initial_globals []).globals.fields_to_render k =
      requested (strtok_tokens optarg) k := by
  have hfst := apply_tokens_fst (strtok_tokens optarg) 0
  have hnone : ((strtok_tokens optarg).find? fun t => decide (t ∉ field_names)) = none := by
    rw [List.find?_eq_none]
    intro t ht
    simpa using hvalid t ht
  rw [hnone] at hfst
  have hc := cmdline_f_eq optarg
  rw [hfst] at hc
  rw [hc]
  exact selected_apply_tokens _ hvalid k

/-- C4 as stated fails: for the request `energyJ,systime` on one node with Package
only, the header and the data line print the system-time column (field 0)
before the energy column (field 5). -/
theorem request_order_not_kept :
    strtok_tokens "energyJ,systime".data = ["energyJ".data, "systime".data] ∧
      header_cols hw_pkg_only
        (cmdline [Opt.f "energyJ,systime".data] initial_globals []).globals.fields_to_render 1
        = [⟨0, none⟩, ⟨5, some 0⟩] ∧
      row_cols hw_pkg_only
        (cmdline [Opt.f "energyJ,systime".data] initial_globals []).globals.fields_to_render 1
        = [⟨0, none⟩, ⟨5, some 0⟩] := by
  decide

/-- C4, amended: for every `-f` argument whose tokens are all spellings of
enumerators, the header prints, node by node, the requested fields in the
order of `enum fields`, whatever the order of the request: a field without a
domain once (for node 0), a field with a domain for every node when the domain
is supported, and nothing else is dropped; two requests with the same set of
tokens give the same header; and when `ia_freq` is not requested and there is
at least one node, every data line has the columns of the header in the same
order. -/
theorem header_in_enum_order (hw : Hardware) (optarg : List Char) (num_node : Nat)
    (hvalid : ∀ t ∈ strtok_tokens optarg, t ∈ field_names) :
    header_cols hw (cmdline [Opt.f optarg] initial_globals []).globals.fields_to_render
        num_node =
      ((List.range num_node).flatMap fun i =>
        (List.range ENUM_SIZE).flatMap fun k =>
          if requested (strtok_tokens optarg) k then header_col hw i k else []) ∧
    (∀ optarg', (∀ t ∈ strtok_tokens optarg', t ∈ field_names) →
      (∀ t, t ∈ strtok_tokens optarg ↔ t ∈ strtok_tokens optarg') →
      header_cols hw (cmdline [Opt.f optarg'] initial_globals []).globals.fields_to_render
          num_node =
        header_cols hw (cmdline [Opt.f optarg] initial_globals []).globals.fields_to_render
          num_node) ∧
    (1 ≤ num_node → requested (strtok_tokens optarg) 3 = false →
      row_cols hw (cmdline [Opt.f optarg] initial_globals []).globals.fields_to_render
          num_node =
        header_cols hw (cmdline [Opt.f optarg] initial_globals []).globals.fields_to_render
          num_node) := by
  have key : ∀ oa, (∀ t ∈ strtok_tokens oa, t ∈ field_names) →
      header_cols hw (cmdline [Opt.f oa] initial_globals []).globals.fields_to_render
          num_node =
        ((List.range num_node).flatMap fun i =>
          (List.range ENUM_SIZE).flatMap fun k =>
            if requested (strtok_tokens oa) k then header_col hw i k else []) := by
    intro oa hv
    unfold header_cols
    simp only [header_node_eq, mask_of_valid oa hv]
  refine ⟨key optarg hvalid, ?_, ?_⟩
  · intro optarg' hvalid' hsame
    rw [key optarg hvalid, key optarg' hvalid']
    simp only [requested_congr _ _ hsame]
  · intro hn h3
    exact row_cols_eq_header_cols hw _ num_node
      ((mask_of_valid optarg hvalid 3).trans h3) hn

/-- C4, amended, at the request `energyJ,systime` on one node with Package only. -/
theorem header_in_enum_order_witness :
    (∀ t ∈ strtok_tokens "energyJ,systime".data, t ∈ field_names) ∧
      header_cols hw_pkg_only
          (cmdline [Opt.f "energyJ,systime".data] initial_globals []).globals.fields_to_render 1 =
        ((List.range 1).flatMap fun i =>
          (List.range ENUM_SIZE).flatMap fun k =>
            if requested (strtok_tokens "energyJ,systime".data) k then header_col hw_pkg_only i k
            else []) ∧
      header_cols hw_pkg_only
          (cmdline [Opt.f "systime,energyJ".data] initial_globals []).globals.fields_to_render 1 =
        header_cols hw_pkg_only
          (cmdline [Opt.f "energyJ,systime".data] initial_globals []).globals.fields_to_render 1 :=
  ⟨by decide,
    (header_in_enum_order hw_pkg_only "energyJ,systime".data 1 (by decide)).1,
    (header_in_enum_order hw_pkg_only "energyJ,systime".data 1 (by decide)).2.1
      "systime,energyJ".data (by decide) (by
        intro t
        have h1 : strtok_tokens "energyJ,systime".data = ["energyJ".data, "systime".data] := by
          decide
        have h2 : strtok_tokens "systime,energyJ".data = ["systime".data, "energyJ".data] := by
          decide
        rw [h1, h2]
        simp only [List.mem_cons, List.mem_singleton, List.not_mem_nil, or_false]
        exact or_comm)⟩

/-- C5 on the code: with only `ia_freq` selected, one node and the four domains
present, the header has one frequency column and the data line has four, one
per pass of the domain loop. -/
theorem row_repeats_frequency_column :
    selected (1 <<< 3) 3 = true ∧
      header_cols hw_all (1 <<< 3) 1 = [⟨3, some 0⟩] ∧
      row_cols hw_all (1 <<< 3) 1 = [⟨3, some 0⟩, ⟨3, some 0⟩, ⟨3, some 0⟩, ⟨3, some 0⟩] := by
  decide

/-- C6 on the code: for the command line of the usage example, `-e 1000 -d 10`,
`cmdline` returns 0 and leaves `fields_to_render` at its initial value 0, so
`do_print_energy_info` runs with no bit set and prints an empty header and
empty data lines. -/
theorem no_selection_selects_nothing :
    (cmdline [Opt.e 1000, Opt.d (Dbl.fin 10)] initial_globals []).ret = 0 ∧
      (cmdline [Opt.e 1000, Opt.d (Dbl.fin 10)] initial_globals []).globals.fields_to_render
        = 0 ∧
      (∃ g, main 5 0 [Opt.e 1000, Opt.d (Dbl.fin 10)] = MainOutcome.sampled g ∧
        g.fields_to_render = 0) ∧
      header_cols hw_all 0 1 = [] ∧ row_cols hw_all 0 1 = [] := by
  have hc : cmdline [Opt.e 1000, Opt.d (Dbl.fin 10)] initial_globals [] =
      ⟨0, { delay_us := 1000000, duration := Dbl.fin 10, fields_to_render := 0 }, []⟩ := by
    have he : ((1000 : Int) % (2 ^ 64 : Int)).toNat = 1000 := by decide
    norm_num [cmdline, initial_globals, Dbl.le, Dbl.zero] at he ⊢
    exact he ▸ rfl
  refine ⟨by rw [hc], by rw [hc],
    ⟨{ delay_us := 1000000, duration := Dbl.fin 10, fields_to_render := 0 }, ?_, rfl⟩,
    by decide, by decide⟩
  unfold main
  rw [hc]
  rfl

/-- C9 on the code: for `-e -1`, `atoi` returns `-1`, which the assignment to the
`uint64_t` `delay_ms_temp` turns into `2 ^ 64 - 1`; the test `>= 50` passes,
`cmdline` returns 0 and `delay_us` becomes `2 ^ 64 - 1000`. -/
theorem negative_delay_is_accepted :
    (cmdline [Opt.e (-1)] initial_globals []).ret = 0 ∧
      (cmdline [Opt.e (-1)] initial_globals []).globals.delay_us = 18446744073709550616 ∧
      (∃ g, main 3 0 [Opt.e (-1)] = MainOutcome.sampled g ∧
        g.delay_us = 18446744073709550616) := by
  refine ⟨by decide, by decide,
    ⟨{ initial_globals with delay_us := 18446744073709550616 }, rfl, rfl⟩⟩

/-- For a delay from 0 up to `INT_MAX`, `cmdline` does what C9 says: it returns `-1`
and leaves `delay_us` alone below 50, and sets `delay_us = 1000 * d` from 50
on. -/
theorem nonnegative_delay (d : Nat) (g : Globals) (hmax : d < 2 ^ 31) :
    (d < 50 → (cmdline [Opt.e d] g []).ret = -1 ∧
        (cmdline [Opt.e d] g []).globals.delay_us = g.delay_us) ∧
      (50 ≤ d → (cmdline [Opt.e d] g []).ret = 0 ∧
        (cmdline [Opt.e d] g []).globals.delay_us = 1000 * d) := by
  have hmod : ((d : Int) % 18446744073709551616).toNat = d := by
    rw [Int.emod_eq_of_lt (by omega) (by omega)]
    simp
  constructor
  · intro h
    have h50 : ¬ 50 ≤ d := by omega
    simp [cmdline, hmod, h50]
  · intro h
    have hlt : d * 1000 % 18446744073709551616 = 1000 * d := by
      rw [Nat.mod_eq_of_lt (by omega)]
      omega
    simp [cmdline, hmod, h, hlt]

end PowerGadget
